import Mathlib

/-!
# Verification of the HammerOverlay time-resolution pipeline

A shallow embedding of the core of the `discord-time-app` repository:

* the Format Catalog (`src/lib/formats.ts`): the 7 Discord timestamp
  formats, the markup renderer `formatDiscordTimestamp` and the preview
  `getFormatLabel`;
* the existing-timestamp detector `parseExistingTimestamp`
  (`src/components/Overlay.tsx`), which recognises the markup
  `<t:DIGITS:[dDtTfFR]>` via a leftmost regex match;
* the usage-preference tracker `getMostUsedFormatIndex`
  (`src/lib/stats.ts`);
* the resolution orchestrator of `Overlay.tsx` (`parseInput` and the
  input-change effect), modelled as a segmented state machine so that
  cooperative cancellation (AbortController) can be reasoned about;
* the backend `/parse` handler (the fastify server with the
  OpenAI-normalisation + chrono fallback chain) together with
  `OpenAIParser.validateResponse` (`api/src/openai.ts`).

External collaborators (the chrono-node date parser, the OpenAI transport
and the browser locale renderer) are not part of the repository; they are
modelled as oracle parameters, exactly at the boundaries the TypeScript
code calls them.  JavaScript numbers that only ever hold integer values
(epochs, indices, counts) are modelled as `Int`/`Nat`; confidence scores
and raw JSON numbers are modelled as `ℚ`.
-/

/-! ## Format catalog (`src/lib/formats.ts`) -/

structure DiscordFormat where
  code : String
  label : String
  description : String
deriving DecidableEq, Repr

/-- The 7 Discord formats, in catalog order (`formats` in `formats.ts`). -/
def formats : List DiscordFormat :=
  [ ⟨":d", "07/05/2025", "Short Date"⟩,
    ⟨":D", "July 5, 2025", "Long Date"⟩,
    ⟨":t", "9:30 AM", "Short Time"⟩,
    ⟨":T", "9:30:00 AM", "Long Time"⟩,
    ⟨":f", "July 5, 2025 9:30 AM", "Short Date/Time"⟩,
    ⟨":F", "Saturday, July 5, 2025 9:30 AM", "Long Date/Time"⟩,
    ⟨":R", "in 2 hours", "Relative Time"⟩ ]

/-- Placeholder used for the (unreachable) out-of-bounds list read. -/
def defaultFormat : DiscordFormat := ⟨"", "", ""⟩

/-- `formatDiscordTimestamp(epoch, formatIndex)`: clamps an out-of-range
index to 0 (short date) and renders the wire markup
`` `<t:${epoch}${format.code}>` ``.  Epochs in this pipeline are
non-negative integers, rendered in decimal exactly as JavaScript template
interpolation does. -/
def formatDiscordTimestamp (epoch : Nat) (formatIndex : Int) : String :=
  let fi : Int :=
    if formatIndex < 0 ∨ (formats.length : Int) ≤ formatIndex then 0 else formatIndex
  let format := formats.getD fi.toNat defaultFormat
  "<t:" ++ Nat.repr epoch ++ format.code ++ ">"

/-- `getFormatLabel(epoch, formatIndex)`: returns `"Invalid format"` for an
out-of-range index, otherwise a locale-formatted preview.  The in-range
branches call the browser's `Date.toLocale*String` (and `new Date()` for
the relative case), which is environment behaviour outside the repository;
it is modelled by the oracle `localePreview`. -/
def getFormatLabel (localePreview : Nat → DiscordFormat → String)
    (epoch : Nat) (formatIndex : Int) : String :=
  if formatIndex < 0 ∨ (formats.length : Int) ≤ formatIndex then
    "Invalid format"
  else
    localePreview epoch (formats.getD formatIndex.toNat defaultFormat)

/-! ## Existing-timestamp detector (`Overlay.tsx`, `parseExistingTimestamp`)

The source matches `text` against the regex `/<t:(\d+)(:[dDtTfFR])>/` and,
on a match, checks `epoch > 0 && epoch < 2147483647`.  The regex engine
finds the leftmost match; at a given start position the pattern is the
literal `<t:`, a maximal nonempty run of ASCII digits (greediness cannot
backtrack here because the following literal `:` is not a digit), then
`:`, a format-class character, and `>`. -/

/-- The character class `[dDtTfFR]` of the detector regex. -/
def formatCodeChars : List Char := ['d', 'D', 't', 'T', 'f', 'F', 'R']

/-- Greedily split off the leading run of ASCII digits (`\d+` semantics:
JavaScript `\d` is exactly `[0-9]`, as is `Char.isDigit`). -/
def takeDigits : List Char → List Char × List Char
  | [] => ([], [])
  | c :: cs =>
    if c.isDigit then
      let p := takeDigits cs
      (c :: p.1, p.2)
    else
      ([], c :: cs)

/-- Try to match `<t:(\d+)(:[dDtTfFR])>` at the head of `l`; returns the
captured digit run and the format-class character. -/
def matchAt (l : List Char) : Option (List Char × Char) :=
  match l with
  | a :: b :: c :: rest =>
    if a = '<' ∧ b = 't' ∧ c = ':' then
      let p := takeDigits rest
      match p.1, p.2 with
      | [], _ => none
      | _ :: _, d :: x :: g :: _ =>
        if d = ':' ∧ x ∈ formatCodeChars ∧ g = '>' then some (p.1, x) else none
      | _ :: _, _ => none
    else none
  | _ => none

/-- Leftmost match: try `matchAt` at every position, left to right. -/
def scanTimestamp : List Char → Option (List Char × Char)
  | [] => none
  | c :: cs =>
    match matchAt (c :: cs) with
    | some m => some m
    | none => scanTimestamp cs

/-- The digit string converted to a number, as `parseInt(digits, 10)` does.
(For the range comparison the detector performs, floating-point rounding in
`parseInt` never changes the outcome: values are exact below `2^53` and all
inexact values stay far above the `2147483647` cutoff.) -/
def digitsToNat (ds : List Char) : Nat :=
  ds.foldl (fun n c => n * 10 + (c.toNat - '0'.toNat)) 0

/-- The `{ epoch, formatCode }` object returned by the detector; the
`formatCode` capture group includes the leading colon. -/
structure ExistingTimestamp where
  epoch : Nat
  formatCode : String
deriving DecidableEq, Repr

/-- `parseExistingTimestamp(text)` from `Overlay.tsx`: leftmost regex match
followed by the range check `epoch > 0 && epoch < 2147483647`. -/
def parseExistingTimestamp (text : String) : Option ExistingTimestamp :=
  match scanTimestamp text.data with
  | none => none
  | some (ds, x) =>
    let epoch := digitsToNat ds
    if 0 < epoch ∧ epoch < 2147483647 then
      some ⟨epoch, String.mk [':', x]⟩
    else
      none

example : parseExistingTimestamp "<t:1700000000:D>" = some ⟨1700000000, ":D"⟩ := by decide
example : parseExistingTimestamp "<t:0:d>" = none := by decide
example : parseExistingTimestamp "<t:2147483647:d>" = none := by decide
example : parseExistingTimestamp "hey <t:99:R> there" = some ⟨99, ":R"⟩ := by decide
example : formatDiscordTimestamp 1700000000 1 = "<t:1700000000:D>" := by decide
example : formatDiscordTimestamp 5 9 = "<t:5:d>" := by decide

/-! ## Decimal rendering facts

`Nat.repr` (the model of JavaScript template interpolation of a
non-negative integer) is `Nat.toDigits 10`, a fuel-based loop.  We relate
it to a structurally recursive digit list and prove the facts the
round-trip theorem needs: the digit list is a nonempty run of ASCII digits
and `parseInt` recovers the original number. -/

/-- Structural form of the digit list produced by `Nat.toDigits 10`. -/
def decimalDigits (n : Nat) : List Char :=
  if _h : n < 10 then [Nat.digitChar n]
  else decimalDigits (n / 10) ++ [Nat.digitChar (n % 10)]
decreasing_by exact Nat.div_lt_self (by omega) (by omega)

lemma toDigitsCore_eq_decimalDigits :
    ∀ (fuel n : Nat) (ds : List Char), n < fuel →
      Nat.toDigitsCore 10 fuel n ds = decimalDigits n ++ ds := by
  intro fuel
  induction fuel with
  | zero => intro n ds h; omega
  | succ f ih =>
    intro n ds h
    simp only [Nat.toDigitsCore]
    by_cases h10 : n / 10 = 0
    · have hn : n < 10 := by omega
      rw [if_pos h10, decimalDigits, dif_pos hn, Nat.mod_eq_of_lt hn]
      rfl
    · have hn : ¬n < 10 := by omega
      have hlt : n / 10 < f := by
        have hd : n / 10 < n := Nat.div_lt_self (by omega) (by omega)
        omega
      rw [if_neg h10, ih (n / 10) _ hlt]
      conv_rhs => rw [decimalDigits, dif_neg hn]
      simp

lemma toDigits_eq_decimalDigits (n : Nat) : Nat.toDigits 10 n = decimalDigits n := by
  rw [Nat.toDigits, toDigitsCore_eq_decimalDigits (n + 1) n [] (Nat.lt_succ_self n)]
  simp

lemma digitChar_isDigit {d : Nat} (h : d < 10) : (Nat.digitChar d).isDigit = true := by
  interval_cases d <;> decide

lemma digitChar_val {d : Nat} (h : d < 10) : (Nat.digitChar d).toNat - 48 = d := by
  interval_cases d <;> decide

lemma decimalDigits_ne_nil (n : Nat) : decimalDigits n ≠ [] := by
  rw [decimalDigits]
  split <;> simp

lemma decimalDigits_isDigit (n : Nat) : ∀ c ∈ decimalDigits n, c.isDigit = true := by
  induction n using Nat.strong_induction_on with
  | _ n ih =>
    rw [decimalDigits]
    split
    · next h =>
      intro c hc
      simp only [List.mem_singleton] at hc
      subst hc
      exact digitChar_isDigit h
    · next h =>
      intro c hc
      simp only [List.mem_append, List.mem_singleton] at hc
      rcases hc with hc | hc
      · exact ih (n / 10) (Nat.div_lt_self (by omega) (by omega)) c hc
      · subst hc
        exact digitChar_isDigit (Nat.mod_lt _ (by omega))

lemma foldl_decimalDigits (n : Nat) :
    ∀ a : Nat, (decimalDigits n).foldl (fun m c => m * 10 + (c.toNat - '0'.toNat)) a
      = a * 10 ^ (decimalDigits n).length + n := by
  induction n using Nat.strong_induction_on with
  | _ n ih =>
    intro a
    rw [decimalDigits]
    split
    · next h =>
      simp [List.foldl, digitChar_val h]
    · next h =>
      rw [List.foldl_append, ih (n / 10) (Nat.div_lt_self (by omega) (by omega)) a]
      simp only [List.foldl, List.length_append, List.length_singleton]
      rw [show '0'.toNat = 48 from rfl, digitChar_val (Nat.mod_lt _ (by omega)), pow_succ,
        ← mul_assoc]
      set m := a * 10 ^ (decimalDigits (n / 10)).length with hm
      omega

lemma digitsToNat_decimalDigits (n : Nat) : digitsToNat (decimalDigits n) = n := by
  have h := foldl_decimalDigits n 0
  simpa [digitsToNat] using h

/-! ## Detector characterisation -/

lemma takeDigits_append_colon (ds r : List Char) (h : ∀ c ∈ ds, c.isDigit = true) :
    takeDigits (ds ++ ':' :: r) = (ds, ':' :: r) := by
  induction ds with
  | nil => simp [takeDigits, show (':'.isDigit) = false from rfl]
  | cons d ds ih =>
    have hd : d.isDigit = true := h d (List.mem_cons_self d ds)
    have ih' := ih fun c hc => h c (List.mem_cons_of_mem d hc)
    simp [takeDigits, hd, ih']

lemma matchAt_markup (ds r : List Char) (x : Char)
    (hne : ds ≠ []) (hdig : ∀ c ∈ ds, c.isDigit = true) (hx : x ∈ formatCodeChars) :
    matchAt ('<' :: 't' :: ':' :: (ds ++ ':' :: x :: '>' :: r)) = some (ds, x) := by
  obtain ⟨d0, ds', rfl⟩ : ∃ d0 ds', ds = d0 :: ds' := by
    cases ds with
    | nil => exact absurd rfl hne
    | cons d0 ds' => exact ⟨d0, ds', rfl⟩
  have ht := takeDigits_append_colon (d0 :: ds') (x :: '>' :: r) hdig
  simp only [List.cons_append] at ht
  simp [matchAt, ht, hx]

lemma matchAt_cons_ne (c : Char) (l : List Char) (h : ¬c = '<') :
    matchAt (c :: l) = none := by
  match l with
  | [] => rfl
  | [b] => rfl
  | b :: d :: l' => simp [matchAt, h]

lemma scanTimestamp_append (p l : List Char) (hp : '<' ∉ p) :
    scanTimestamp (p ++ l) = scanTimestamp l := by
  induction p with
  | nil => rfl
  | cons c p ih =>
    have hc : ¬c = '<' := fun h => hp (h ▸ List.mem_cons_self c p)
    have hp' : '<' ∉ p := fun h => hp (List.mem_cons_of_mem c h)
    simp [scanTimestamp, matchAt_cons_ne c _ hc, ih hp']

lemma scanTimestamp_markup (ds r : List Char) (x : Char)
    (hne : ds ≠ []) (hdig : ∀ c ∈ ds, c.isDigit = true) (hx : x ∈ formatCodeChars) :
    scanTimestamp ('<' :: 't' :: ':' :: (ds ++ ':' :: x :: '>' :: r)) = some (ds, x) := by
  simp [scanTimestamp, matchAt_markup ds r x hne hdig hx]

/-- The detector on any text whose first `<` begins a well-formed markup
occurrence: the match is found and the result is governed exactly by the
range check `0 < epoch < 2147483647`. -/
lemma parseExisting_eq_of_data (t : String) (p ds r : List Char) (x : Char)
    (hdata : t.data = p ++ ('<' :: 't' :: ':' :: (ds ++ ':' :: x :: '>' :: r)))
    (hp : '<' ∉ p) (hne : ds ≠ []) (hdig : ∀ c ∈ ds, c.isDigit = true)
    (hx : x ∈ formatCodeChars) :
    parseExistingTimestamp t
      = if 0 < digitsToNat ds ∧ digitsToNat ds < 2147483647
        then some ⟨digitsToNat ds, String.mk [':', x]⟩ else none := by
  simp only [parseExistingTimestamp, hdata, scanTimestamp_append p _ hp,
    scanTimestamp_markup ds r x hne hdig hx]

/-! ## Claim C6 — detector acceptance range (corrected)

The spec claims the accepted range is the inclusive `1 .. 2147483647`; the
source checks `epoch > 0 && epoch < 2147483647`, so the upper bound
`2147483647` itself is rejected. -/

/-- **C6 counterexample**: the text `"<t:2147483647:d>"` contains the
markup pattern with digits `2147483647`, inside the range the claim says is
accepted, yet the detector returns none. -/
theorem c6_counterexample :
    parseExistingTimestamp "<t:2147483647:d>" = none ∧
      parseExistingTimestamp "<t:2147483647:d>" ≠
        some ⟨2147483647, (formats.getD 0 defaultFormat).code⟩ := by
  decide

/-- **C6 (amended)**: for every text made of a prefix containing no `<`
(so the shown occurrence is the leftmost match candidate), the markup
`<t:DIGITS:C>` with `C` in the class, and an arbitrary suffix, the
detector returns `{epoch, code}` iff the digits parse to an integer in
`1 .. 2147483646`; outside that range (including `0` and `2147483647`) it
returns none. -/
theorem c6_detector_range (p s : String) (ds : List Char) (x : Char)
    (hp : '<' ∉ p.data) (hne : ds ≠ []) (hdig : ∀ c ∈ ds, c.isDigit = true)
    (hx : x ∈ formatCodeChars) :
    parseExistingTimestamp
        (p ++ "<t:" ++ String.mk ds ++ ":" ++ String.mk [x] ++ ">" ++ s)
      = if 0 < digitsToNat ds ∧ digitsToNat ds < 2147483647
        then some ⟨digitsToNat ds, String.mk [':', x]⟩ else none := by
  apply parseExisting_eq_of_data _ p.data ds s.data x _ hp hne hdig hx
  simp [String.data_append, show ("<t:" : String).data = ['<', 't', ':'] from rfl,
    show (":" : String).data = [':'] from rfl,
    show (">" : String).data = ['>'] from rfl]

/-- **C6 witness**: a concrete in-range and a concrete out-of-range
instance of the amended range theorem. -/
theorem c6_detector_range_witness :
    parseExistingTimestamp ("x" ++ "<t:" ++ String.mk ['4', '2'] ++ ":" ++
        String.mk ['d'] ++ ">" ++ "!")
      = some ⟨42, String.mk [':', 'd']⟩ := by
  have h := c6_detector_range "x" "!" ['4', '2'] 'd'
    (by decide) (by decide) (by decide) (by decide)
  simpa using h

/-! ## Claim C1 — round-trip of render and detect -/

lemma formats_length : formats.length = 7 := rfl

lemma formatDiscordTimestamp_inRange (E : Nat) (i : Nat) (hi : i < 7) :
    formatDiscordTimestamp E (i : Int)
      = "<t:" ++ Nat.repr E ++ (formats.getD i defaultFormat).code ++ ">" := by
  have h1 : ¬((i : Int) < 0 ∨ (formats.length : Int) ≤ (i : Int)) := by
    rw [formats_length]
    omega
  simp only [formatDiscordTimestamp]
  rw [if_neg h1, Int.toNat_natCast]

lemma formats_code_shape (i : Nat) (hi : i < 7) :
    ∃ x, x ∈ formatCodeChars ∧ (formats.getD i defaultFormat).code = String.mk [':', x] := by
  interval_cases i
  · exact ⟨'d', by decide, rfl⟩
  · exact ⟨'D', by decide, rfl⟩
  · exact ⟨'t', by decide, rfl⟩
  · exact ⟨'T', by decide, rfl⟩
  · exact ⟨'f', by decide, rfl⟩
  · exact ⟨'F', by decide, rfl⟩
  · exact ⟨'R', by decide, rfl⟩

lemma repr_eq_mk_decimalDigits (E : Nat) : Nat.repr E = String.mk (decimalDigits E) := by
  rw [show Nat.repr E = String.mk (Nat.toDigits 10 E) from rfl, toDigits_eq_decimalDigits]

/-- **C1**: for every epoch the detector accepts (`0 < E < 2147483647`) and
every catalog index `i` in `0..6`, rendering with `formatDiscordTimestamp`
and running `parseExistingTimestamp` on the result returns exactly
`{epoch := E, formatCode := formats[i].code}` — the round-trip holds for
all 7 codes. -/
theorem c1_round_trip (E : Nat) (hE0 : 0 < E) (hE : E < 2147483647)
    (i : Nat) (hi : i < 7) :
    parseExistingTimestamp (formatDiscordTimestamp E (i : Int))
      = some ⟨E, (formats.getD i defaultFormat).code⟩ := by
  obtain ⟨x, hx, hcode⟩ := formats_code_shape i hi
  rw [formatDiscordTimestamp_inRange E i hi, hcode, repr_eq_mk_decimalDigits]
  rw [parseExisting_eq_of_data _ [] (decimalDigits E) [] x _ (by simp)
    (decimalDigits_ne_nil E) (decimalDigits_isDigit E) hx]
  · rw [digitsToNat_decimalDigits, if_pos ⟨hE0, hE⟩]
  · simp [String.data_append, show ("<t:" : String).data = ['<', 't', ':'] from rfl,
      show (">" : String).data = ['>'] from rfl]

/-- **C1 witness**: the round-trip at `E = 1700000000`, `i = 1` (`:D`). -/
theorem c1_round_trip_witness :
    parseExistingTimestamp (formatDiscordTimestamp 1700000000 ((1 : Nat) : Int))
      = some ⟨1700000000, (formats.getD 1 defaultFormat).code⟩ :=
  c1_round_trip 1700000000 (by decide) (by decide) 1 (by decide)

/-! ## Claim C10 — render clamps, preview rejects -/

/-- **C10**: for every out-of-range format index (`< 0` or `> 6`),
`formatDiscordTimestamp` clamps to index 0 (short date) while
`getFormatLabel` returns the literal `"Invalid format"` (for any epoch and
any locale renderer). -/
theorem c10_clamp_vs_invalid (pv : Nat → DiscordFormat → String) (epoch : Nat)
    (i : Int) (h : i < 0 ∨ 6 < i) :
    formatDiscordTimestamp epoch i = formatDiscordTimestamp epoch 0 ∧
      getFormatLabel pv epoch i = "Invalid format" := by
  have h7 : (formats.length : Int) = 7 := rfl
  have hcond : i < 0 ∨ (formats.length : Int) ≤ i := by rw [h7]; omega
  have hcond0 : ¬((0 : Int) < 0 ∨ (formats.length : Int) ≤ 0) := by rw [h7]; omega
  constructor
  · simp only [formatDiscordTimestamp]
    rw [if_pos hcond, if_neg hcond0]
  · simp only [getFormatLabel]
    rw [if_pos hcond]

/-- **C10 witness**: index 9 clamps in the renderer and is rejected by the
preview. -/
theorem c10_clamp_vs_invalid_witness :
    formatDiscordTimestamp 1700000000 9 = formatDiscordTimestamp 1700000000 0 ∧
      getFormatLabel (fun _ _ => "preview") 1700000000 9 = "Invalid format" :=
  c10_clamp_vs_invalid (fun _ _ => "preview") 1700000000 9 (by decide)

/-! ## Usage preference tracker (`src/lib/stats.ts`) -/

/-- The code order of the local `formatCodes` array in `stats.ts`. -/
def formatCodes : List String := ["d", "D", "t", "T", "f", "F", "R"]

/-- A `FormatStats` read: JavaScript `stats[code] || 0` (a missing key
reads as `undefined`, which the `|| 0` turns into `0`). -/
def statsCount (stats : String → Option Nat) (code : String) : Nat :=
  (stats code).getD 0

/-- `getMostUsedFormatIndex(stats)`: a `forEach` over the codes keeping
`(maxCount, mostUsedIndex)`, both initialised to `0`, updating only on a
strictly greater count. -/
def getMostUsedFormatIndex (stats : String → Option Nat) : Nat :=
  (formatCodes.enum.foldl
    (fun acc p =>
      let count := statsCount stats p.2
      if acc.1 < count then (count, p.1) else acc)
    (0, 0)).2

/-- The count stored for catalog index `i`. -/
def countAt (stats : String → Option Nat) (i : Nat) : Nat :=
  statsCount stats (formatCodes.getD i "")

example : getMostUsedFormatIndex (fun c => if c = "t" then some 5 else some 1) = 2 := rfl
example : getMostUsedFormatIndex (fun c => if c = "D" ∨ c = "R" then some 9 else some 0) = 1 := by
  decide

/-- Invariant carried by `getMostUsedFormatIndex`'s `forEach` loop after
the first `k` codes: the kept index is in range, its count dominates every
count seen so far, and every index below it lost a strict comparison. -/
def MostUsedInv (stats : String → Option Nat) (k : Nat) (acc : Nat × Nat) : Prop :=
  acc.2 < 7 ∧ acc.1 ≤ countAt stats acc.2 ∧
    (∀ j, j < k → countAt stats j ≤ acc.1) ∧
    (∀ j, j < acc.2 → countAt stats j < acc.1)

lemma mostUsed_step (stats : String → Option Nat) (k : Nat) (code : String)
    (acc : Nat × Nat) (hcode : countAt stats k = statsCount stats code) (hk : k < 7)
    (h : MostUsedInv stats k acc) :
    MostUsedInv stats (k + 1)
      (if acc.1 < statsCount stats code then (statsCount stats code, k) else acc) := by
  obtain ⟨ha, hb, hc, hd⟩ := h
  by_cases hcase : acc.1 < statsCount stats code
  · rw [if_pos hcase]
    refine ⟨hk, by simp [← hcode], ?_, ?_⟩
    · intro j hj
      rcases Nat.lt_succ_iff_lt_or_eq.mp hj with hj | rfl
      · exact le_of_lt (lt_of_le_of_lt (hc j hj) hcase)
      · simp [← hcode]
    · intro j hj
      exact lt_of_le_of_lt (hc j hj) hcase
  · rw [if_neg hcase]
    refine ⟨ha, hb, ?_, hd⟩
    intro j hj
    rcases Nat.lt_succ_iff_lt_or_eq.mp hj with hj | rfl
    · exact hc j hj
    · rw [hcode]; omega

/-- **C9**: for every histogram, `getMostUsedFormatIndex` returns the
lowest index among the format codes with the maximum count (ties broken by
catalog order), and for the all-zero histogram it returns index 0 (short
date). -/
theorem c9_most_used_lowest_index :
    (∀ stats : String → Option Nat,
      getMostUsedFormatIndex stats < 7 ∧
      (∀ j, j < 7 →
        countAt stats j ≤ countAt stats (getMostUsedFormatIndex stats)) ∧
      (∀ j, j < getMostUsedFormatIndex stats →
        countAt stats j < countAt stats (getMostUsedFormatIndex stats))) ∧
    getMostUsedFormatIndex (fun _ => some 0) = 0 := by
  constructor
  · intro stats
    have h0 : MostUsedInv stats 0 (0, 0) :=
      ⟨by norm_num, Nat.zero_le _, fun j hj => absurd hj (by omega),
        fun j hj => absurd hj (by omega)⟩
    have h1 := mostUsed_step stats 0 "d" _ rfl (by norm_num) h0
    have h2 := mostUsed_step stats 1 "D" _ rfl (by norm_num) h1
    have h3 := mostUsed_step stats 2 "t" _ rfl (by norm_num) h2
    have h4 := mostUsed_step stats 3 "T" _ rfl (by norm_num) h3
    have h5 := mostUsed_step stats 4 "f" _ rfl (by norm_num) h4
    have h6 := mostUsed_step stats 5 "F" _ rfl (by norm_num) h5
    have h7 := mostUsed_step stats 6 "R" _ rfl (by norm_num) h6
    obtain ⟨ha, hb, hc, hd⟩ := h7
    exact ⟨ha, fun j hj => le_trans (hc j hj) hb,
      fun j hj => lt_of_lt_of_le (hd j hj) hb⟩
  · rfl

/-- **C9 witness**: for a histogram peaking at `"t"` (index 2), the chosen
index dominates index 1 and strictly beats index 0. -/
theorem c9_most_used_lowest_index_witness :
    countAt (fun c => if c = "t" then some 5 else some 1) 1
        ≤ countAt (fun c => if c = "t" then some 5 else some 1)
            (getMostUsedFormatIndex (fun c => if c = "t" then some 5 else some 1)) ∧
      countAt (fun c => if c = "t" then some 5 else some 1) 0
        < countAt (fun c => if c = "t" then some 5 else some 1)
            (getMostUsedFormatIndex (fun c => if c = "t" then some 5 else some 1)) :=
  ⟨(c9_most_used_lowest_index.1 _).2.1 1 (by norm_num),
   (c9_most_used_lowest_index.1 _).2.2 0 (by decide)⟩

/-! ## Resolution orchestrator (`Overlay.tsx`)

The overlay pieces the claims exercise:

* the React state touched by resolution (`epoch`, `selectedIndex`,
  `confidence`, `error`, `loading`, with `useState` initial values
  `null, 0, 1, null, false`);
* the input-change effect (existing-timestamp short-circuit vs 500 ms
  debounced `parseInput`);
* `parseInput` itself, whose `await` points split it into atomic
  JavaScript continuations («segments») with an abort check at the start
  of each resumed segment.

`parseWithLLM` (`lib/prompt.ts`) catches every internal failure — abort,
5-second timeout, transport error, malformed JSON, validation failure —
and resolves to `null`, so the call is modelled as an oracle value
`Option LLMResponse`; `getFormatStats`, `getUserTimezone` and
`parseFallback` likewise absorb their own errors (per their sources), so
`parseInput`'s catch-all branch is unreachable in the model.  JavaScript
truthiness of `number | null` results is modelled by `jsTruthy` (`null`
and `0` are falsy).  The float literal `0.7` is modelled as the exact
rational `7/10`. -/

/-- The `LLMResponse` of `lib/prompt.ts` (normalizedText variant). -/
structure LLMResponse where
  normalizedText : String
  suggestedFormatIndex : ℚ
  confidence : ℚ
  reasoning : String
deriving DecidableEq

/-- JavaScript's whitespace class for `String.prototype.trim` (the ASCII
part; the Unicode space characters never occur in the inputs considered
here). -/
def jsWhitespace (c : Char) : Bool :=
  c = ' ' ∨ c = '\t' ∨ c = '\n' ∨ c = '\r' ∨ c = '\x0b' ∨ c = '\x0c'

/-- JavaScript `text.trim()`: strip leading and trailing whitespace. -/
def jsTrim (s : String) : String :=
  String.mk (((s.data.dropWhile jsWhitespace).reverse.dropWhile jsWhitespace).reverse)

/-- `parseWithLLM`'s response validation (prompt.ts): any range violation
or empty normalized text makes the call throw, which its catch turns into
`null`.  (The `typeof` checks are vacuous in the typed model.) -/
def parseWithLLMValidate (r : LLMResponse) : Bool :=
  if r.suggestedFormatIndex < 0 ∨ 6 < r.suggestedFormatIndex ∨
      r.confidence < 0 ∨ 1 < r.confidence ∨ (jsTrim r.normalizedText).length = 0
  then false else true

/-- JavaScript truthiness of a `number | null` value: `null` and `0` are
falsy. -/
def jsTruthy : Option Int → Bool
  | none => false
  | some e => e != 0

/-- The resolution-relevant `useState` slots of the `Overlay` component. -/
structure OverlayState where
  epoch : Option Int
  selectedIndex : ℚ
  confidence : ℚ
  error : Option String
  loading : Bool
deriving DecidableEq

/-- The `useState` initial values. -/
def initialOverlayState : OverlayState :=
  { epoch := none, selectedIndex := 0, confidence := 1, error := none, loading := false }

/-- The environment one `parseInput` invocation observes: the usage stats
(`getFormatStats`), whether an OpenAI key is configured, the value the
`parseWithLLM` call resolves to, and the chrono-node adapter
`parseFallback`. -/
structure ParseEnv where
  stats : String → Option Nat
  apiKeyPresent : Bool
  llm : Option LLMResponse
  parseFallback : String → Option Int

/-- `setError(null)` at the top of `parseInput`. -/
def clearError (s : OverlayState) : OverlayState := { s with error := none }

/-- The synchronous tail of an uncancelled `parseInput` (everything after
the last `await` and its abort check): the LLM-normalized branch, the
raw-text retry with the `× 0.7` confidence penalty, the chrono-only
deterministic fallback, the terminal errors, and the `finally` clearing
`loading`. -/
def commitRun (env : ParseEnv) (text : String) (s : OverlayState) : OverlayState :=
  let result := if env.apiKeyPresent then env.llm else none
  let s1 :=
    match result with
    | some r =>
      let normalizedEpoch := env.parseFallback r.normalizedText
      if jsTruthy normalizedEpoch then
        { s with epoch := normalizedEpoch, selectedIndex := r.suggestedFormatIndex,
                 confidence := r.confidence }
      else
        let fallbackEpoch := env.parseFallback text
        if jsTruthy fallbackEpoch then
          { s with epoch := fallbackEpoch, selectedIndex := r.suggestedFormatIndex,
                   confidence := r.confidence * (7 / 10) }
        else
          { s with epoch := none,
                   error := some ("Unable to parse even after normalization. LLM suggested: \""
                     ++ r.normalizedText ++ "\"") }
    | none =>
      let fallbackEpoch := env.parseFallback text
      if jsTruthy fallbackEpoch then
        { s with epoch := fallbackEpoch,
                 selectedIndex := (getMostUsedFormatIndex env.stats : ℚ),
                 confidence := 7 / 10 }
      else
        { s with epoch := none,
                 error := some "Unable to parse date/time. Please try a more specific format." }
  { s1 with loading := false }

/-- One `parseInput` invocation as its atomic continuations.  Segment 0 is
the synchronous prologue (`setError(null)`, the first abort check, then
suspension at `await getFormatStats`).  With an API key there are two
suspension points (`getFormatStats`, `parseWithLLM`), hence three
segments; without one there are two.  Every segment after the first
begins by observing the abort flag (the explicit
`abortController.signal.aborted` checks, the AbortError early return and
the guarded `finally`) and performs no state update when it is set. -/
def attemptSegs (env : ParseEnv) (text : String) :
    List (Bool → OverlayState → OverlayState) :=
  if env.apiKeyPresent then
    [fun _ s => clearError s,
     fun ab s => if ab then s else s,
     fun ab s => if ab then s else commitRun env text s]
  else
    [fun _ s => clearError s,
     fun ab s => if ab then s else commitRun env text s]

/-- An attempt that is never cancelled: all segments run with the abort
flag unset. -/
def runAttempt (env : ParseEnv) (text : String) (s : OverlayState) : OverlayState :=
  (attemptSegs env text).foldl (fun s f => f false s) s

/-! ## Claim C7 — deterministic fallback confidence and format index -/

/-- **C7**: whenever the Intent Normalizer yields no result — no API key
configured, or the `parseWithLLM` call resolved to `null` (its catch
absorbs timeouts and errors) — and the deterministic parser succeeds on
the raw text, the attempt resolves with confidence exactly `0.7` and
format index `getMostUsedFormatIndex` of the usage histogram. -/
theorem c7_deterministic_fallback (env : ParseEnv) (text : String) (e : Int)
    (s : OverlayState)
    (hllm : env.apiKeyPresent = false ∨ env.llm = none)
    (hfb : env.parseFallback text = some e) (he : e ≠ 0) :
    runAttempt env text s
      = { epoch := some e, selectedIndex := (getMostUsedFormatIndex env.stats : ℚ),
          confidence := 7 / 10, error := none, loading := false } := by
  cases hkey : env.apiKeyPresent
  · simp [runAttempt, attemptSegs, hkey, commitRun, clearError, hfb, jsTruthy, he]
  · have hnone : env.llm = none := by
      rcases hllm with h | h
      · rw [hkey] at h; cases h
      · exact h
    simp [runAttempt, attemptSegs, hkey, commitRun, clearError, hnone, hfb, jsTruthy, he]

/-- **C7 witness**: LLM unavailable, raw text parses to epoch 1737000000,
histogram peaking at `"t"` (index 2). -/
theorem c7_deterministic_fallback_witness :
    runAttempt
        ⟨fun c => if c = "t" then some 5 else some 1, false, none,
          fun t => if t = "tomorrow at 2pm" then some 1737000000 else none⟩
        "tomorrow at 2pm" initialOverlayState
      = { epoch := some 1737000000, selectedIndex := 2, confidence := 7 / 10,
          error := none, loading := false } := by
  have h := c7_deterministic_fallback
    ⟨fun c => if c = "t" then some 5 else some 1, false, none,
      fun t => if t = "tomorrow at 2pm" then some 1737000000 else none⟩
    "tomorrow at 2pm" 1737000000 initialOverlayState (Or.inl rfl) (by simp) (by decide)
  rw [h]
  simp [show getMostUsedFormatIndex (fun c => if c = "t" then some 5 else some 1) = 2 from rfl]

/-! ## Claim C3 — raw-text retry with penalised confidence (corrected)

The code multiplies the normalizer's self-reported confidence by `0.7` on
the raw-text retry path; that product is *strictly* below the self-report
only when the self-report is positive.  A confidence of `0` passes the
frontend validation (`0 ≤ confidence ≤ 1` in `parseWithLLM`), and then
`0 × 0.7 = 0` is not strictly less than `0`. -/

/-- A validated normalizer result with self-reported confidence `0`. -/
def c3CexLLM : LLMResponse :=
  { normalizedText := "gibberish normalized", suggestedFormatIndex := 2,
    confidence := 0, reasoning := "unsure" }

/-- Environment for the counterexample: the normalized text fails the
deterministic parser, the raw text succeeds. -/
def c3CexEnv : ParseEnv :=
  { stats := fun _ => some 0, apiKeyPresent := true, llm := some c3CexLLM,
    parseFallback := fun t => if t = "trfjkl next week" then some 1705417200 else none }

/-- Shared computation: the state produced by an uncancelled attempt on
the `llm-fallback-raw` path (normalized text unparseable, raw text
parseable). -/
lemma runAttempt_llm_fallback_raw (env : ParseEnv) (text : String)
    (r : LLMResponse) (e : Int) (s : OverlayState)
    (hkey : env.apiKeyPresent = true) (hllm : env.llm = some r)
    (hnorm : jsTruthy (env.parseFallback r.normalizedText) = false)
    (hraw : env.parseFallback text = some e) (he : e ≠ 0) :
    runAttempt env text s
      = { epoch := some e, selectedIndex := r.suggestedFormatIndex,
          confidence := r.confidence * (7 / 10), error := none, loading := false } := by
  have htrue : jsTruthy (some e) = true := by simp [jsTruthy, he]
  simp [runAttempt, attemptSegs, hkey, commitRun, clearError, hllm, hnorm, hraw, htrue]

/-- **C3 counterexample**: all premises of the claim hold (validated LLM
result, normalized text unparseable, raw text parseable), the resulting
confidence is the penalised product, yet it is *not* strictly less than
the self-reported confidence. -/
theorem c3_counterexample :
    parseWithLLMValidate c3CexLLM = true ∧
      jsTruthy (c3CexEnv.parseFallback c3CexLLM.normalizedText) = false ∧
      jsTruthy (c3CexEnv.parseFallback "trfjkl next week") = true ∧
      (runAttempt c3CexEnv "trfjkl next week" initialOverlayState).confidence
        = c3CexLLM.confidence * (7 / 10) ∧
      ¬((runAttempt c3CexEnv "trfjkl next week" initialOverlayState).confidence
          < c3CexLLM.confidence) := by
  have hval : parseWithLLMValidate c3CexLLM = true := by
    have hlen : (jsTrim c3CexLLM.normalizedText).length = 20 := by decide
    rw [parseWithLLMValidate, if_neg]
    rw [hlen]
    norm_num [c3CexLLM]
  have hrun := runAttempt_llm_fallback_raw c3CexEnv "trfjkl next week" c3CexLLM
    1705417200 initialOverlayState rfl rfl (by decide) (by decide) (by decide)
  refine ⟨hval, by decide, by decide, ?_, ?_⟩
  · rw [hrun]
  · rw [hrun]
    norm_num [c3CexLLM]

/-- **C3 (amended)**: when the normalizer returns a result whose
normalized text the deterministic parser cannot parse, the orchestrator
retries the parser on the original raw text; when that retry succeeds the
resulting confidence equals the self-reported confidence times `0.7`,
which is strictly less than the self-report whenever the self-report is
positive (and equal to it when the self-report is `0`). -/
theorem c3_llm_fallback_raw_penalty (env : ParseEnv) (text : String)
    (r : LLMResponse) (e : Int) (s : OverlayState)
    (hkey : env.apiKeyPresent = true) (hllm : env.llm = some r)
    (hnorm : jsTruthy (env.parseFallback r.normalizedText) = false)
    (hraw : env.parseFallback text = some e) (he : e ≠ 0) :
    (runAttempt env text s).epoch = some e ∧
      (runAttempt env text s).selectedIndex = r.suggestedFormatIndex ∧
      (runAttempt env text s).confidence = r.confidence * (7 / 10) ∧
      (0 < r.confidence → (runAttempt env text s).confidence < r.confidence) := by
  have hrun := runAttempt_llm_fallback_raw env text r e s hkey hllm hnorm hraw he
  refine ⟨by rw [hrun], by rw [hrun], by rw [hrun], fun hpos => ?_⟩
  rw [hrun]
  calc r.confidence * (7 / 10) < r.confidence * 1 := by
        exact mul_lt_mul_of_pos_left (by norm_num) hpos
    _ = r.confidence := mul_one _

/-- **C3 witness**: a positive self-reported confidence (`9/10`) is
strictly penalised on the raw-text retry path. -/
theorem c3_llm_fallback_raw_penalty_witness :
    (runAttempt
        ⟨fun _ => some 0, true, some ⟨"bad normalized", 4, 9 / 10, "ok"⟩,
          fun t => if t = "party friday" then some 123 else none⟩
        "party friday" initialOverlayState).confidence = (9 / 10 : ℚ) * (7 / 10) ∧
      (runAttempt
          ⟨fun _ => some 0, true, some ⟨"bad normalized", 4, 9 / 10, "ok"⟩,
            fun t => if t = "party friday" then some 123 else none⟩
          "party friday" initialOverlayState).confidence < (9 / 10 : ℚ) := by
  have h := c3_llm_fallback_raw_penalty
    ⟨fun _ => some 0, true, some ⟨"bad normalized", 4, 9 / 10, "ok"⟩,
      fun t => if t = "party friday" then some 123 else none⟩
    "party friday" ⟨"bad normalized", 4, 9 / 10, "ok"⟩ 123 initialOverlayState
    rfl rfl (by decide) (by decide) (by decide)
  exact ⟨h.2.2.1, h.2.2.2 (by norm_num)⟩

/-! ## Claim C2 — cancellation discard

The event-loop model.  JavaScript continuations are atomic: the effect
that supersedes attempt A (`Overlay.tsx`, the input-change `useEffect`)
runs `clearTimeout` and `abortController.abort()` *between* A's segments,
i.e. while A is suspended at an `await` — so the abort lands after some
segment `k ≥ 1` (if A's debounce timer had not even fired, `clearTimeout`
removes A entirely).  A's remaining segments then run with the abort flag
set, in *any* order relative to attempt B's segments (this is the
"arrival order" of the claim).  B itself runs uncancelled. -/

/-- An arbitrary interleaving of two lists (order within each preserved). -/
inductive Interleave {α : Type} : List α → List α → List α → Prop
  | nil : Interleave [] [] []
  | left {x : α} {xs ys zs : List α} :
      Interleave xs ys zs → Interleave (x :: xs) ys (x :: zs)
  | right {y : α} {xs ys zs : List α} :
      Interleave xs ys zs → Interleave xs (y :: ys) (y :: zs)

/-- Run a list of state transformers in order. -/
def applyAll (fs : List (OverlayState → OverlayState)) (s : OverlayState) : OverlayState :=
  fs.foldl (fun s f => f s) s

/-- Interleaving with no-op transformers on the left is just the right
list. -/
lemma applyAll_of_left_id :
    ∀ {l1 l2 zs : List (OverlayState → OverlayState)}, Interleave l1 l2 zs →
      (∀ f ∈ l1, ∀ s, f s = s) → ∀ s, applyAll zs s = applyAll l2 s := by
  intro l1 l2 zs h
  induction h with
  | nil => intro _ _; rfl
  | @left x xs ys zs h ih =>
    intro hid s
    have hx : x s = s := hid x (List.mem_cons_self _ _) s
    have h1 : applyAll (x :: zs) s = applyAll zs (x s) := rfl
    rw [h1, hx, ih (fun f hf s => hid f (List.mem_cons_of_mem _ hf) s) s]
  | @right y xs ys zs h ih =>
    intro hid s
    have h1 : applyAll (y :: zs) s = applyAll zs (y s) := rfl
    have h2 : applyAll (y :: ys) s = applyAll ys (y s) := rfl
    rw [h1, h2, ih hid (y s)]

/-- Every segment after the first is a no-op once the attempt's abort flag
is set (the code's abort checks and the guarded `finally`). -/
lemma attemptSegs_aborted_id (env : ParseEnv) (text : String) :
    ∀ f ∈ (attemptSegs env text).drop 1, ∀ s, f true s = s := by
  unfold attemptSegs
  split <;> intro f hf s <;> fin_cases hf <;> rfl

/-- A fortiori: segments after any abort point `k ≥ 1` are no-ops when
aborted. -/
lemma attemptSegs_dropk_id (env : ParseEnv) (text : String) (k : Nat) (hk : 1 ≤ k) :
    ∀ f ∈ (attemptSegs env text).drop k, ∀ s, f true s = s := by
  intro f hf s
  have hkk : 1 + (k - 1) = k := by omega
  have h1 : (attemptSegs env text).drop k
      = ((attemptSegs env text).drop 1).drop (k - 1) := by
    rw [List.drop_drop, hkk]
  rw [h1] at hf
  exact attemptSegs_aborted_id env text f (List.drop_subset _ _ hf) s

/-- **C2**: if attempt A is aborted while suspended after its segment `k`
(`k ≥ 1`; A's prefix ran unaborted from state `s0`), then for *every*
interleaving `zs` of A's remaining (aborted) segments with superseding
attempt B's (unaborted) segments, the final state is exactly B's
uncancelled run from the post-prefix state: none of A's late results are
applied, regardless of arrival order. -/
theorem c2_cancellation_discard (envA envB : ParseEnv) (textA textB : String)
    (k : Nat) (hk : 1 ≤ k) (zs : List (OverlayState → OverlayState))
    (s0 : OverlayState)
    (hinter : Interleave
      (((attemptSegs envA textA).drop k).map (fun f => f true))
      ((attemptSegs envB textB).map (fun f => f false)) zs) :
    applyAll zs
        (applyAll (((attemptSegs envA textA).take k).map (fun f => f false)) s0)
      = runAttempt envB textB
          (applyAll (((attemptSegs envA textA).take k).map (fun f => f false)) s0) := by
  have hid : ∀ f ∈ ((attemptSegs envA textA).drop k).map (fun f => f true),
      ∀ s, f s = s := by
    intro f hf s
    obtain ⟨g, hg, rfl⟩ := List.mem_map.mp hf
    exact attemptSegs_dropk_id envA textA k hk g hg s
  rw [applyAll_of_left_id hinter hid]
  simp [applyAll, List.foldl_map, runAttempt]

/-- One concrete interleaving: all of B, then A's stragglers. -/
lemma interleave_append_left {α : Type} (l1 l2 : List α) :
    Interleave l1 l2 (l2 ++ l1) := by
  induction l2 with
  | nil =>
    rw [List.nil_append]
    induction l1 with
    | nil => exact .nil
    | cons x xs ih => exact .left ih
  | cons y ys ih => exact .right ih

/-- **C2 witness**: concrete attempts (A with an LLM key, B without; B's
raw text parses to 42), abort after A's first segment, with A's late
segments arriving after B resolved. -/
theorem c2_cancellation_discard_witness :
    applyAll
        (((attemptSegs ⟨fun _ => none, false, none, fun _ => some 42⟩ "B text").map
            (fun f => f false)) ++
          (((attemptSegs ⟨fun _ => none, true,
              some ⟨"late", 3, 1 / 2, "r"⟩, fun _ => some 7⟩ "A text").drop 1).map
            (fun f => f true)))
        (applyAll
          (((attemptSegs ⟨fun _ => none, true,
              some ⟨"late", 3, 1 / 2, "r"⟩, fun _ => some 7⟩ "A text").take 1).map
            (fun f => f false))
          initialOverlayState)
      = runAttempt ⟨fun _ => none, false, none, fun _ => some 42⟩ "B text"
          (applyAll
            (((attemptSegs ⟨fun _ => none, true,
                some ⟨"late", 3, 1 / 2, "r"⟩, fun _ => some 7⟩ "A text").take 1).map
              (fun f => f false))
            initialOverlayState) :=
  c2_cancellation_discard
    ⟨fun _ => none, true, some ⟨"late", 3, 1 / 2, "r"⟩, fun _ => some 7⟩
    ⟨fun _ => none, false, none, fun _ => some 42⟩
    "A text" "B text" 1 (by omega) _ initialOverlayState
    (interleave_append_left _ _)

/-! ## Claim C5 — existing-markup short-circuit

The input-change `useEffect` of `Overlay.tsx`: empty input clears; an
input that already is a Discord timestamp updates the state immediately
(no debounce timer, `parseInput` — and hence the LLM — never runs); any
other input sets `loading` and schedules the debounced `parseInput`. -/

/-- What the input-change effect decides to do beyond its state updates. -/
inductive EffectAction
  | clear
  | shortCircuit
  | debounceParse (text : String)
deriving DecidableEq

/-- The input-change `useEffect` body as a step on the overlay state.  In
the short-circuit branch `setSelectedIndex(formatIndex >= 0 ? formatIndex
: 0)` uses `formats.findIndex` (`-1` when absent); `confidence` is not
touched on this path. -/
def inputChangeStep (s : OverlayState) (inputText : String) :
    OverlayState × EffectAction :=
  if (jsTrim inputText).data = [] then
    ({ s with epoch := none, error := none, loading := false }, .clear)
  else
    match parseExistingTimestamp (jsTrim inputText) with
    | some et =>
      let found : Option Nat := formats.findIdx? (fun f => f.code == et.formatCode)
      let formatIndex : Int :=
        match found with
        | some i => (i : Int)
        | none => -1
      let clamped : Int := if 0 ≤ formatIndex then formatIndex else 0
      ({ s with epoch := some (et.epoch : Int),
                selectedIndex := (clamped : ℚ),
                error := none, loading := false }, .shortCircuit)
    | none =>
      ({ s with loading := true }, .debounceParse (jsTrim inputText))

/-- **C5**: pasting `"<t:1700000000:D>"` into a fresh overlay immediately
produces the resolved state `{epoch := 1700000000, selectedIndex := 1
(long date), confidence := 1, error := none, loading := false}`, by the
short-circuit (`EffectAction.shortCircuit`): no debounce timer is started
and `parseInput` — and with it any Intent Normalizer call — never runs.
(`confidence = 1` is the untouched `useState(1)` initial value.) -/
theorem c5_short_circuit :
    inputChangeStep initialOverlayState "<t:1700000000:D>"
      = ({ epoch := some 1700000000, selectedIndex := 1, confidence := 1,
           error := none, loading := false }, EffectAction.shortCircuit) := by
  decide

/-! ## HTTP Parse Service (`api` — the fastify `/parse` handler with
OpenAI normalisation and chrono fallback, and `OpenAIParser`)

The OpenAI transport is an oracle: it either produces a raw JSON object
(`OpenAIRaw`, fields `Option`-typed since JSON may omit or mistype them)
or fails (no response / malformed JSON / network error).
`OpenAIParser.parseTime` validates the raw object with `validateResponse`
and *throws* on both failure kinds; the handler's `catch (openaiError)`
turns any throw into "no result" and falls through to the chrono-node
fallback on the raw text.  Database logging and its failure modes (the
generic 500 path) are outside the model. -/

/-- A raw Intent Normalizer JSON response as received by the service. -/
structure OpenAIRaw where
  normalizedText : Option String
  suggestedFormatIndex : Option ℚ
  confidence : Option ℚ
  reasoning : Option String
deriving DecidableEq

/-- `OpenAIParser.validateResponse` (`api/src/openai.ts`): sequential
checks — normalized text present and nonempty after trim, numeric fields
present, reasoning present, then `0 ≤ suggestedFormatIndex ≤ 6` and
`0 ≤ confidence ≤ 1`. -/
def validateResponse (r : OpenAIRaw) : Bool :=
  match r.normalizedText with
  | none => false
  | some nt =>
    if (jsTrim nt).length = 0 then false
    else
      match r.suggestedFormatIndex with
      | none => false
      | some idx =>
        match r.confidence with
        | none => false
        | some conf =>
          match r.reasoning with
          | none => false
          | some _ =>
            if idx < 0 ∨ 6 < idx then false
            else if conf < 0 ∨ 1 < conf then false
            else true

/-- Outcome of the OpenAI transport for one request. -/
inductive OpenAIOutcome
  | resp (r : OpenAIRaw)
  | fail

/-- What one `/parse` request observes. -/
structure ApiEnv where
  openaiKeyPresent : Bool
  outcome : OpenAIOutcome
  parseFallback : String → Option Int

/-- A validated normalizer result as the handler consumes it. -/
structure ValidLLM where
  normalizedText : String
  suggestedFormatIndex : ℚ
  confidence : ℚ
deriving DecidableEq

/-- `openaiParser.parseTime` as seen from the handler's `try`: `some` on a
transport success that passes validation, `none` for every thrown error
(the handler's `catch` makes both failure kinds fall through
identically). -/
def parseTimeModel (env : ApiEnv) : Option ValidLLM :=
  match env.outcome with
  | .fail => none
  | .resp r =>
    if validateResponse r then
      match r.normalizedText, r.suggestedFormatIndex, r.confidence with
      | some nt, some idx, some conf => some ⟨nt, idx, conf⟩
      | _, _, _ => none
    else none

/-- The handler's mutable locals, with their initialisers
(`epoch = null`, `suggestedFormatIndex = 4`, `confidence = 0.5`,
`method = 'fallback'`). -/
structure ParseLocals where
  epoch : Option Int
  idx : ℚ
  conf : ℚ
  method : String
deriving DecidableEq

/-- A successful (HTTP 200) `/parse` response body. -/
structure ParseSuccess where
  epoch : Int
  suggestedFormatIndex : ℚ
  confidence : ℚ
  method : String
deriving DecidableEq

/-- The `/parse` handler's reply: 200 with a body, or 400 when no parsing
path produced an epoch.  (The 500 path only fires on unexpected throws,
e.g. from database logging, which is outside the model.) -/
inductive ParseReply
  | ok (r : ParseSuccess)
  | badRequest
deriving DecidableEq

/-- The `/parse` handler: OpenAI normalisation, chrono on the normalized
text, chrono retry on the raw text with the `× 0.7` penalty, then the
chrono-only fallback when OpenAI produced nothing, and 400 when `epoch`
is still `null`. -/
def handleParse (env : ApiEnv) (text : String) : ParseReply :=
  let llmResult := if env.openaiKeyPresent then parseTimeModel env else none
  let st1 : ParseLocals :=
    match llmResult with
    | some l =>
      let normalizedEpoch := env.parseFallback l.normalizedText
      if jsTruthy normalizedEpoch then
        ⟨normalizedEpoch, l.suggestedFormatIndex, l.confidence, "openai"⟩
      else
        let fallbackEpoch := env.parseFallback text
        if jsTruthy fallbackEpoch then
          ⟨fallbackEpoch, l.suggestedFormatIndex, l.confidence * (7 / 10),
            "openai-fallback"⟩
        else
          ⟨none, 4, 1 / 2, "fallback"⟩
    | none => ⟨none, 4, 1 / 2, "fallback"⟩
  let st2 : ParseLocals :=
    if st1.epoch = none then
      let epoch2 := env.parseFallback text
      if jsTruthy epoch2 then ⟨epoch2, st1.idx, 7 / 10, "fallback"⟩
      else ⟨epoch2, st1.idx, st1.conf, st1.method⟩
    else st1
  match st2.epoch with
  | none => .badRequest
  | some e => .ok ⟨e, st2.idx, st2.conf, st2.method⟩

lemma jsTruthy_eq_true {o : Option Int} (h : jsTruthy o = true) :
    ∃ e, o = some e ∧ e ≠ 0 := by
  cases o with
  | none => simp [jsTruthy] at h
  | some e => exact ⟨e, rfl, by simpa [jsTruthy] using h⟩

/-- A response `validateResponse` accepts has all four fields present and
the numeric fields in range. -/
lemma validateResponse_ranges (r : OpenAIRaw) (h : validateResponse r = true) :
    ∃ nt idx conf rs, r = ⟨some nt, some idx, some conf, some rs⟩ ∧
      0 ≤ idx ∧ idx ≤ 6 ∧ 0 ≤ conf ∧ conf ≤ 1 := by
  rcases r with ⟨nt, idx, conf, rs⟩
  cases nt with
  | none => simp [validateResponse] at h
  | some nt =>
    cases idx with
    | none => simp [validateResponse] at h
    | some idx =>
      cases conf with
      | none => simp [validateResponse] at h
      | some conf =>
        cases rs with
        | none => simp [validateResponse] at h
        | some rs =>
          refine ⟨nt, idx, conf, rs, rfl, ?_⟩
          simp only [validateResponse] at h
          split_ifs at h with h1 h2 h3
          rw [not_or, not_lt, not_lt] at h2 h3
          exact ⟨h2.1, h2.2, h3.1, h3.2⟩

lemma parseTimeModel_bounds {env : ApiEnv} {l : ValidLLM}
    (h : parseTimeModel env = some l) :
    0 ≤ l.suggestedFormatIndex ∧ l.suggestedFormatIndex ≤ 6 ∧
      0 ≤ l.confidence ∧ l.confidence ≤ 1 := by
  cases henv : env.outcome with
  | fail => simp [parseTimeModel, henv] at h
  | resp r =>
    by_cases hv : validateResponse r = true
    · obtain ⟨nt, idx, conf, rs, rfl, hb1, hb2, hb3, hb4⟩ := validateResponse_ranges r hv
      simp only [parseTimeModel, henv, if_pos hv] at h
      rw [Option.some.injEq] at h
      subst h
      exact ⟨hb1, hb2, hb3, hb4⟩
    · have hvf : validateResponse r = false := by
        cases hb : validateResponse r
        · rfl
        · exact absurd hb hv
      simp [parseTimeModel, henv, hvf] at h

/-! ## Claim C4 — validation rejection falls through to raw parsing -/

lemma validateResponse_eq_false (r : OpenAIRaw)
    (h : (∃ c, r.confidence = some c ∧ (c < 0 ∨ 1 < c)) ∨
         (∃ i, r.suggestedFormatIndex = some i ∧ (i < 0 ∨ 6 < i))) :
    validateResponse r = false := by
  by_contra hcon
  have hv : validateResponse r = true := by
    cases hb : validateResponse r
    · exact absurd hb hcon
    · rfl
  obtain ⟨nt, idx, conf, rs, heq, hb1, hb2, hb3, hb4⟩ := validateResponse_ranges r hv
  subst heq
  rcases h with ⟨c, hc, hcr⟩ | ⟨i, hi, hir⟩
  · have : conf = c := by simpa using hc
    subst this
    rcases hcr with hcr | hcr <;> linarith
  · have : idx = i := by simpa using hi
    subst this
    rcases hir with hir | hir <;> linarith

/-- **C4**: a normalizer response with out-of-range `confidence` (e.g.
`1.5`) or out-of-range `suggestedFormatIndex` (e.g. `9`) makes the
pipeline behave exactly as if the normalizer had produced no result, and
in particular fall through to deterministic parsing of the raw text (index
4, confidence `0.7`, method `fallback`) without using any field of the
invalid response. -/
theorem c4_validation_rejection (env : ApiEnv) (text : String) (r : OpenAIRaw)
    (h : (∃ c, r.confidence = some c ∧ (c < 0 ∨ 1 < c)) ∨
         (∃ i, r.suggestedFormatIndex = some i ∧ (i < 0 ∨ 6 < i))) :
    handleParse { env with outcome := .resp r } text
        = handleParse { env with outcome := .fail } text ∧
      ∀ e : Int, env.parseFallback text = some e → e ≠ 0 →
        handleParse { env with outcome := .resp r } text
          = .ok ⟨e, 4, 7 / 10, "fallback"⟩ := by
  have hval := validateResponse_eq_false r h
  have hm1 : parseTimeModel { env with outcome := .resp r } = none := by
    simp [parseTimeModel, hval]
  have hm2 : parseTimeModel { env with outcome := .fail } = none := rfl
  constructor
  · simp [handleParse, hm1, hm2]
  · intro e he hne
    have htrue : jsTruthy (some e) = true := by simp [jsTruthy, hne]
    simp [handleParse, hm1, he, htrue]

/-- **C4 witness**: a response with `confidence = 1.5` is discarded and
the raw text `"raw text"` parses deterministically to epoch 555. -/
theorem c4_validation_rejection_witness :
    handleParse
        ⟨true, .resp ⟨some "tomorrow noon", some 2, some (3 / 2), some "ok"⟩,
          fun t => if t = "raw text" then some 555 else none⟩ "raw text"
      = .ok ⟨555, 4, 7 / 10, "fallback"⟩ := by
  have h := c4_validation_rejection
    ⟨true, .fail, fun t => if t = "raw text" then some 555 else none⟩ "raw text"
    ⟨some "tomorrow noon", some 2, some (3 / 2), some "ok"⟩
    (Or.inl ⟨3 / 2, rfl, Or.inr (by norm_num)⟩)
  exact h.2 555 (by simp) (by decide)

/-! ## Claim C8 — 200-response shape -/

lemma bool_eq_false {b : Bool} (h : ¬b = true) : b = false := by
  cases b
  · rfl
  · exact absurd rfl h

/-- **C8**: every successful (HTTP 200) `/parse` reply carries all four
fields — `epoch` (an integer by construction), `suggestedFormatIndex` in
`[0, 6]`, `confidence` in `[0, 1]` and a `method` string (one of the three
the handler produces). -/
theorem c8_response_shape (env : ApiEnv) (text : String) (p : ParseSuccess)
    (h : handleParse env text = .ok p) :
    0 ≤ p.suggestedFormatIndex ∧ p.suggestedFormatIndex ≤ 6 ∧
      0 ≤ p.confidence ∧ p.confidence ≤ 1 ∧
      (p.method = "openai" ∨ p.method = "openai-fallback" ∨ p.method = "fallback") := by
  rcases hl : (if env.openaiKeyPresent then parseTimeModel env else none) with _ | l
  · simp only [handleParse, hl] at h
    cases hpf : env.parseFallback text with
    | none =>
      rw [hpf, show jsTruthy none = false from rfl] at h
      simp at h
    | some e =>
      rw [hpf] at h
      by_cases he : e = 0
      · subst he
        rw [show jsTruthy (some 0) = false from rfl] at h
        simp at h
        subst h
        refine ⟨by norm_num, by norm_num, by norm_num, by norm_num, ?_⟩
        exact Or.inr (Or.inr rfl)
      · have ht : jsTruthy (some e) = true := by simp [jsTruthy, he]
        rw [ht] at h
        simp at h
        subst h
        refine ⟨by norm_num, by norm_num, by norm_num, by norm_num, ?_⟩
        exact Or.inr (Or.inr rfl)
  · have hpm : parseTimeModel env = some l := by
      cases hk : env.openaiKeyPresent
      · rw [hk] at hl; simp at hl
      · rw [hk] at hl; simpa using hl
    obtain ⟨hb1, hb2, hb3, hb4⟩ := parseTimeModel_bounds hpm
    simp only [handleParse, hl] at h
    by_cases hn : jsTruthy (env.parseFallback l.normalizedText) = true
    · obtain ⟨e1, he1, hne1⟩ := jsTruthy_eq_true hn
      rw [he1, show jsTruthy (some e1) = (e1 != 0) from rfl,
        bne_iff_ne.mpr hne1] at h
      simp at h
      subst h
      exact ⟨hb1, hb2, hb3, hb4, Or.inl rfl⟩
    · have hnf := bool_eq_false hn
      rw [hnf] at h
      by_cases hr : jsTruthy (env.parseFallback text) = true
      · obtain ⟨e2, he2, hne2⟩ := jsTruthy_eq_true hr
        rw [he2, show jsTruthy (some e2) = (e2 != 0) from rfl,
          bne_iff_ne.mpr hne2] at h
        simp at h
        subst h
        refine ⟨hb1, hb2, mul_nonneg hb3 (by norm_num), ?_, Or.inr (Or.inl rfl)⟩
        calc l.confidence * (7 / 10) ≤ 1 * (7 / 10) :=
              mul_le_mul_of_nonneg_right hb4 (by norm_num)
          _ ≤ 1 := by norm_num
      · have hrf := bool_eq_false hr
        rw [hrf] at h
        cases hpf : env.parseFallback text with
        | none =>
          rw [hpf] at h
          simp at h
        | some e =>
          rw [hpf] at h
          simp at h
          subst h
          refine ⟨by norm_num, by norm_num, by norm_num, by norm_num, ?_⟩
          exact Or.inr (Or.inr rfl)

/-- **C8 witness**: the chrono-only fallback reply for a request whose raw
text parses to epoch 100. -/
theorem c8_response_shape_witness :
    0 ≤ (⟨100, 4, 7 / 10, "fallback"⟩ : ParseSuccess).suggestedFormatIndex ∧
      (⟨100, 4, 7 / 10, "fallback"⟩ : ParseSuccess).suggestedFormatIndex ≤ 6 ∧
      0 ≤ (⟨100, 4, 7 / 10, "fallback"⟩ : ParseSuccess).confidence ∧
      (⟨100, 4, 7 / 10, "fallback"⟩ : ParseSuccess).confidence ≤ 1 ∧
      ((⟨100, 4, 7 / 10, "fallback"⟩ : ParseSuccess).method = "openai" ∨
        (⟨100, 4, 7 / 10, "fallback"⟩ : ParseSuccess).method = "openai-fallback" ∨
        (⟨100, 4, 7 / 10, "fallback"⟩ : ParseSuccess).method = "fallback") :=
  c8_response_shape ⟨false, .fail, fun _ => some 100⟩ "next week"
    ⟨100, 4, 7 / 10, "fallback"⟩ rfl
